import Mathlib

set_option autoImplicit false

/-!
Verification of the capability-scenario worksheet engine of the risk/control
dashboard: the selection model (`DashboardTreeRenderer`), the metrics delta
classification (`DashboardMetrics`), and the scenario/draft lifecycle
(`DashboardScenarios`, `DraftManager`).  JavaScript `Set` objects are embedded
as insertion-ordered duplicate-free lists of strings (`jsAdd` checks
membership before appending, exactly as `Set.add`; `jsDelete` is `Set.delete`).
-/

/-- Color of the animated metric-change indicator (the `colorType` argument of
`animateMetricChange` in `DashboardMetrics.js`). -/
inductive DeltaColor where
  | green
  | yellow
  | red
deriving Repr, DecidableEq

/-- Payload of `POST /api/capability-analysis` as built by `recalculateMetrics`
in `DashboardMetrics.js`: `capability_ids` is always present, `control_ids` is
an optional field of the JSON object. -/
structure AnalysisPayload where
  capability_ids : List String
  control_ids : Option (List String)
deriving Repr, DecidableEq

/-- Request-payload construction of `recalculateMetrics` (`DashboardMetrics.js`
lines 75-91).  `activeControlIds` is `null` when `this.activeControls` is unset
(modelled by `none`), otherwise `Array.from(this.activeControls)`; the
`control_ids` field is added only when `activeControlIds !== null` and
`activeControlIds.length > 0`. -/
def buildAnalysisPayload (activeCapabilityIds : List String)
    (activeControlIds : Option (List String)) : AnalysisPayload :=
  let payload : AnalysisPayload :=
    { capability_ids := activeCapabilityIds, control_ids := none }
  match activeControlIds with
  | some ids => if ids.length > 0 then { payload with control_ids := some ids } else payload
  | none => payload

/-- Delta color for the `partially_covered_risks` metric card as computed by
`recalculateMetrics` (`DashboardMetrics.js` lines 160-211).  The previous
values are `none` on the first update (`this.previousMetrics` starts at
`null`); the result is `none` when no change indicator is animated (first
update, or the value did not change).  As in the source, a `null` previous
exposed/active-risks value makes the corresponding concurrent delta `0`. -/
def partialDeltaColor (prevPartially prevExposed prevActiveRisks : Option Int)
    (newPartially newExposed newActiveRisks : Int) : Option DeltaColor :=
  match prevPartially with
  | none => none
  | some previous =>
    if previous = newPartially then none
    else
      let change : Int := newPartially - previous
      let exposedChange : Int :=
        match prevExposed with
        | some pe => newExposed - pe
        | none => 0
      let activeRisksChange : Int :=
        match prevActiveRisks with
        | some pa => newActiveRisks - pa
        | none => 0
      if change > 0 then
        if exposedChange < 0 then some DeltaColor.green
        else if activeRisksChange < 0 then some DeltaColor.yellow
        else some DeltaColor.yellow
      else
        if activeRisksChange > 0 then some DeltaColor.green
        else if exposedChange > 0 then some DeltaColor.yellow
        else some DeltaColor.green

/-- Tie-break table exactly as the claim states it: green when the partial
count increased while `exposed_risks` decreased; yellow when it increased
while `active_risks` decreased; every other combination yellow on increase
and green on decrease.  Written from the claim text, to be compared with
`partialDeltaColor` (the source behaviour). -/
def claimedPartialDeltaColor (change exposedChange activeRisksChange : Int) : DeltaColor :=
  if change > 0 ∧ exposedChange < 0 then DeltaColor.green
  else if change > 0 ∧ activeRisksChange < 0 then DeltaColor.yellow
  else if change > 0 then DeltaColor.yellow
  else DeltaColor.green

/-- Tie-break table as the code actually implements it, amending the claim
with the decrease-side rules: on decrease, green when `active_risks`
increased, otherwise yellow when `exposed_risks` increased, otherwise green. -/
def amendedPartialDeltaColor (change exposedChange activeRisksChange : Int) : DeltaColor :=
  if change > 0 then
    if exposedChange < 0 then DeltaColor.green
    else if activeRisksChange < 0 then DeltaColor.yellow
    else DeltaColor.yellow
  else
    if activeRisksChange > 0 then DeltaColor.green
    else if exposedChange > 0 then DeltaColor.yellow
    else DeltaColor.green

/-- Reference to a control nested under a capability in the
`/api/capability-tree` payload (`{control_id, control_title}`). -/
structure ControlRef where
  control_id : String
  control_title : String
deriving Repr, DecidableEq

/-- Capability node of the reference tree.  Only the fields the worksheet
engine reads are embedded; a missing `controls` array behaves as the empty
list (every access in the source is guarded by `capability.controls || []` or
`if (capability.controls)`). -/
structure Capability where
  capability_id : String
  capability_name : String
  controls : List ControlRef
deriving Repr, DecidableEq

/-- JavaScript `Set` of strings, embedded as its insertion-ordered,
duplicate-free element list. -/
abbrev JsSet := List String

/-- JS `Set.prototype.add`: appends the element unless already present. -/
def jsAdd (s : JsSet) (x : String) : JsSet :=
  if x ∈ s then s else s ++ [x]

/-- JS `Set.prototype.delete`: removes the element (a `Set` holds it at most
once). -/
def jsDelete (s : JsSet) (x : String) : JsSet :=
  s.erase x

/-- JS `Set.prototype.has`. -/
def jsHas (s : JsSet) (x : String) : Bool :=
  decide (x ∈ s)

/-- Local draft slot written by `DraftManager.persistDraft` under the
`capabilityWorksheetDraft:v1:user:{uid}` storage key.  The `updatedAt`
timestamp is wall-clock data and is not embedded. -/
structure Draft where
  activeCapabilityIds : List String
  activeControlIds : List String
deriving Repr, DecidableEq

/-- In-memory worksheet state of the dashboard singleton: the reference tree
(`this.treeData`, `null` until loaded), the two selection sets, the bound
scenario id (`this.currentScenarioId`, kept in sync with
`ScenarioManager.currentScenarioId`), and the local draft slot.  The init
guards in the source (`if (!this.activeControls) this.activeControls = new
Set()`) make an unset selection set behave as the empty set, which is how it
is embedded. -/
structure DashState where
  treeData : Option (List Capability)
  activeCapabilities : JsSet
  activeControls : JsSet
  currentScenarioId : Option Nat
  draft : Option Draft
deriving Repr, DecidableEq

/-- Derived per-capability activation status: the CSS class / badge chosen by
`createCapabilityColumn` (the `else` branch producing a bare `active` class is
unreachable, since an active capability is always classified fully or
partially active). -/
inductive CapStatus where
  | inactive
  | fullyActive
  | partiallyActive
deriving Repr, DecidableEq

/-- Status derivation of `createCapabilityColumn` (tree renderer lines
238-265): `isActive` is membership of the capability id in
`activeCapabilities`; an active capability with controls is fully active when
the count of its controls present in `activeControls` equals the control
count, otherwise partially active; an active capability with zero controls is
partially active; a capability not in `activeCapabilities` is inactive. -/
def computeStatus (st : DashState) (cap : Capability) : CapStatus :=
  if cap.capability_id ∈ st.activeCapabilities ∧ 0 < cap.controls.length then
    if (cap.controls.filter (fun c => jsHas st.activeControls c.control_id)).length
        = cap.controls.length then
      CapStatus.fullyActive
    else
      CapStatus.partiallyActive
  else if cap.capability_id ∈ st.activeCapabilities ∧ cap.controls.length = 0 then
    CapStatus.partiallyActive
  else
    CapStatus.inactive

/-- `toggleCapability` (tree renderer lines 831-889): a missing or falsy
`capability_id` is rejected (console error, no state change).  Deactivating
removes the capability id and deletes every one of its control ids from
`activeControls`; activating adds the capability id and every one of its
control ids. -/
def toggleCapability (st : DashState) (cap : Capability) : DashState :=
  if cap.capability_id = "" then st
  else if cap.capability_id ∈ st.activeCapabilities then
    { st with
        activeCapabilities := jsDelete st.activeCapabilities cap.capability_id,
        activeControls :=
          cap.controls.foldl (fun s c => jsDelete s c.control_id) st.activeControls }
  else
    { st with
        activeCapabilities := jsAdd st.activeCapabilities cap.capability_id,
        activeControls :=
          cap.controls.foldl (fun s c => jsAdd s c.control_id) st.activeControls }

/-- Entry of a serialized `control_selections` list
(`{control_id, is_active}`). -/
structure ControlSelection where
  control_id : String
  is_active : Bool
deriving Repr, DecidableEq

/-- Entry of a serialized `selections` list (`{capability_id, is_active}`). -/
structure CapabilitySelection where
  capability_id : String
  is_active : Bool
deriving Repr, DecidableEq

/-- `this.treeData.find(cap => cap.capability_id === capabilityId)`. -/
def findCapability (tree : List Capability) (capabilityId : String) : Option Capability :=
  tree.find? (fun cap => cap.capability_id == capabilityId)

/-- Body of the inner `capability.controls.forEach` loop of
`serializeControlSelections` (tree renderer lines 891-944): a control with a
falsy `control_id` is skipped with a console warning; a control id not yet in
the accumulator gets a fresh `{control_id, is_active}` entry; an id already
present keeps its entry, with `is_active` OR-ed with the current activity. -/
def insertControlSelection (activeControls : JsSet) (acc : List ControlSelection)
    (control : ControlRef) : List ControlSelection :=
  if control.control_id = "" then acc
  else if (acc.find? (fun e => e.control_id == control.control_id)).isSome then
    acc.map (fun e =>
      if e.control_id == control.control_id then
        { e with is_active := e.is_active || jsHas activeControls control.control_id }
      else e)
  else
    acc ++ [{ control_id := control.control_id,
              is_active := jsHas activeControls control.control_id }]

/-- `serializeControlSelections` (tree renderer lines 891-944): with no tree
loaded the result is `[]`; otherwise every active capability id is looked up
in the tree and each of its controls is folded into the accumulator,
deduplicated by `control_id`. -/
def serializeControlSelections (st : DashState) : List ControlSelection :=
  match st.treeData with
  | none => []
  | some tree =>
    st.activeCapabilities.foldl
      (fun acc capabilityId =>
        match findCapability tree capabilityId with
        | some capability =>
          capability.controls.foldl (insertControlSelection st.activeControls) acc
        | none => acc)
      []

/-- Result shape of `serializeSelections`
(`DashboardScenarios` lines 250-276). -/
structure SerializedSelections where
  selections : List CapabilitySelection
  control_selections : List ControlSelection
deriving Repr, DecidableEq

/-- `serializeSelections` (`DashboardScenarios` lines 250-276): with no tree
loaded both lists are empty (with a console warning); otherwise `selections`
maps every capability of the tree to `{capability_id, is_active}` and
`control_selections` delegates to `serializeControlSelections`. -/
def serializeSelections (st : DashState) : SerializedSelections :=
  match st.treeData with
  | none => { selections := [], control_selections := [] }
  | some tree =>
    { selections := tree.map (fun cap =>
        { capability_id := cap.capability_id,
          is_active := jsHas st.activeCapabilities cap.capability_id }),
      control_selections := serializeControlSelections st }

/-- Observable calls of the scenario lifecycle operations: status messages
(`StatusMessageManager.show`), save-status updates (`SaveStatusManager`), the
`PUT /api/capability-scenarios/{id}` update call of
`ScenarioManager.updateScenario`, the draft storage write
(`localStorage.setItem` in `DraftManager.persistDraft`) and removal
(`clearDraft`), the tree re-render and the metrics recomputation. -/
inductive Effect where
  | statusMessage (message : String) (level : String)
  | saveStatus (status : String)
  | putScenario (scenarioId : Nat) (payload : SerializedSelections)
  | draftWrite (activeCapabilityIds activeControlIds : List String)
  | draftRemove
  | renderTree
  | recalcMetrics
deriving Repr, DecidableEq

/-- Controller `persistDraft` (`DashboardScenarios` lines 287-294) together
with `DraftManager.persistDraft`: `storageOk` models whether
`localStorage.setItem` succeeds.  On success the draft slot holds both id
arrays and the save status becomes `saved`; on a storage error the exception
is swallowed, no draft is written and the save status becomes `error`. -/
def persistDraft (st : DashState) (storageOk : Bool) : DashState × List Effect :=
  if storageOk then
    ({ st with draft := some { activeCapabilityIds := st.activeCapabilities,
                               activeControlIds := st.activeControls } },
     [Effect.draftWrite st.activeCapabilities st.activeControls,
      Effect.saveStatus "saved"])
  else
    (st, [Effect.saveStatus "error"])

/-- `saveScenario` (`DashboardScenarios` lines 315-340): with no bound
scenario it shows a warning and persists a local draft instead of calling the
update endpoint; with a bound scenario it serializes the selection, PUTs it,
and on success clears the draft (`serverOk` models the fetch outcome; the
failure branch shows the error message of the thrown error, embedded as the
generic text). -/
def saveScenario (st : DashState) (storageOk serverOk : Bool) : DashState × List Effect :=
  match st.currentScenarioId with
  | none =>
    let warn := Effect.statusMessage
      "No worksheet selected. Use Save As… to name and save, or continue editing to keep a local draft."
      "warning"
    let result := persistDraft st storageOk
    (result.1, warn :: result.2)
  | some scenarioId =>
    if serverOk then
      ({ st with draft := none },
       [Effect.saveStatus "saving",
        Effect.putScenario scenarioId (serializeSelections st),
        Effect.saveStatus "saved",
        Effect.statusMessage "Scenario saved successfully" "success",
        Effect.draftRemove])
    else
      (st, [Effect.saveStatus "saving",
            Effect.putScenario scenarioId (serializeSelections st),
            Effect.saveStatus "error",
            Effect.statusMessage "Error saving scenario" "error"])

/-- Server-persisted scenario as consumed by `loadScenario`: a scenario saved
before granular control tracking has no `control_selections` field, modelled
as `none`. -/
structure Scenario where
  scenario_id : Nat
  scenario_name : String
  selections : List CapabilitySelection
  control_selections : Option (List ControlSelection)
deriving Repr, DecidableEq

/-- Back-compat default of `loadScenario` (`DashboardScenarios` lines
185-197): with a loaded tree, every control of every active capability found
in the tree is activated; with no tree the control set stays cleared. -/
def defaultActiveControls (treeData : Option (List Capability))
    (activeCapabilities : JsSet) : JsSet :=
  match treeData with
  | some tree =>
    activeCapabilities.foldl
      (fun acc capabilityId =>
        match findCapability tree capabilityId with
        | some capability =>
          capability.controls.foldl (fun a c => jsAdd a c.control_id) acc
        | none => acc)
      []
  | none => []

/-- Selection application of the success path of `loadScenario` with a
non-null id (`DashboardScenarios` lines 141-197): bind the scenario id, clear
`activeCapabilities` and refill it from the saved selections with
`is_active = true`, clear `activeControls`, then restore the saved control
selections when the scenario carries a control-selections list of positive
length (`scenario.control_selections && scenario.control_selections.length >
0`), otherwise fall back to activating every control of every active
capability. -/
def applyScenario (st : DashState) (scenario : Scenario) : DashState :=
  let activeCapabilities : JsSet :=
    scenario.selections.foldl
      (fun acc sel => if sel.is_active then jsAdd acc sel.capability_id else acc) []
  let activeControls : JsSet :=
    match scenario.control_selections with
    | some controlSelections =>
      if 0 < controlSelections.length then
        controlSelections.foldl
          (fun acc cs => if cs.is_active then jsAdd acc cs.control_id else acc) []
      else
        defaultActiveControls st.treeData activeCapabilities
    | none => defaultActiveControls st.treeData activeCapabilities
  { st with
      currentScenarioId := some scenario.scenario_id,
      activeCapabilities := activeCapabilities,
      activeControls := activeControls }

/-- `deleteScenario` (`DashboardScenarios` lines 474-519).  `confirmed`
models the `confirm(...)` answer, `serverOk` the DELETE call outcome.  On
success the active capability set is cleared, the tree re-rendered, metrics
recomputed, the save status reset, the draft cleared and the scenario binding
released (the success message interpolates the scenario name, embedded here
without it); on server failure state is left intact and an error message
shown. -/
def deleteScenario (st : DashState) (confirmed serverOk : Bool) : DashState × List Effect :=
  match st.currentScenarioId with
  | none => (st, [Effect.statusMessage "No scenario selected to delete" "warning"])
  | some _ =>
    if confirmed = false then (st, [])
    else if serverOk then
      ({ st with activeCapabilities := [], draft := none, currentScenarioId := none },
       [Effect.renderTree, Effect.recalcMetrics, Effect.saveStatus "none",
        Effect.statusMessage "Deleted scenario" "success", Effect.draftRemove])
    else
      (st, [Effect.statusMessage "Error deleting scenario" "error"])

/-- C1: the recomputation payload always carries `capability_ids`; it carries
`control_ids` exactly when the set of active control ids is non-empty; and
with an empty active-control set (and a non-empty capability set) the payload
has no `control_ids` field, hence differs from any payload carrying one. -/
theorem recalc_payload_control_ids_iff_nonempty (caps : List String)
    (ctrls : Option (List String)) (hcaps : caps ≠ []) :
    (buildAnalysisPayload caps ctrls).capability_ids = caps
    ∧ ((buildAnalysisPayload caps ctrls).control_ids.isSome ↔ ctrls.getD [] ≠ [])
    ∧ (buildAnalysisPayload caps (some [])).control_ids = none
    ∧ ∀ p : AnalysisPayload, ∀ l : List String, p.control_ids = some l →
        buildAnalysisPayload caps (some []) ≠ p := by
  refine ⟨?_, ?_, ?_, ?_⟩
  · cases ctrls with
    | none => rfl
    | some ids =>
      simp only [buildAnalysisPayload]
      split <;> rfl
  · cases ctrls with
    | none => simp [buildAnalysisPayload]
    | some ids =>
      simp only [buildAnalysisPayload, Option.getD_some]
      rcases ids with _ | ⟨a, rest⟩
      · simp
      · simp
  · rfl
  · intro p l hp hEq
    have : (buildAnalysisPayload caps (some [])).control_ids = p.control_ids := by rw [hEq]
    rw [hp] at this
    simp [buildAnalysisPayload] at this

/-- C1 witness: instantiation at a concrete non-empty capability list. -/
theorem recalc_payload_control_ids_iff_nonempty_witness :
    ["capA"] ≠ ([] : List String)
    ∧ ((buildAnalysisPayload ["capA"] (some ["ctrl1"])).control_ids.isSome
        ↔ (some ["ctrl1"]).getD [] ≠ ([] : List String)) := by
  have h := recalc_payload_control_ids_iff_nonempty ["capA"] (some ["ctrl1"]) (by decide)
  exact ⟨by decide, h.2.1⟩

/-- C2 counterexample: a recomputation where the partial count decreased while
`exposed_risks` increased (and `active_risks` did not move).  The code colors
it yellow, while the claimed table colors every decrease outside the two
increase rules green. -/
theorem partial_delta_color_claim_counterexample :
    partialDeltaColor (some 2) (some 0) (some 5) 1 1 5 = some DeltaColor.yellow
    ∧ claimedPartialDeltaColor (1 - 2) (1 - 0) (5 - 5) = DeltaColor.green := by
  constructor <;> decide

/-- C2 amended: with known previous values and a changed partial count, the
code's color equals the amended table, which keeps the claim's increase rules
and adds the decrease rules: green when `active_risks` increased, else yellow
when `exposed_risks` increased, else green. -/
theorem partial_delta_color_amended (pp pe pa np ne na : Int) (hchange : np ≠ pp) :
    partialDeltaColor (some pp) (some pe) (some pa) np ne na
      = some (amendedPartialDeltaColor (np - pp) (ne - pe) (na - pa)) := by
  have h : ¬ pp = np := fun h => hchange h.symm
  simp only [partialDeltaColor, amendedPartialDeltaColor, if_neg h]
  split_ifs <;> rfl

/-- C2 amended witness: instantiation at a concrete recomputation pair. -/
theorem partial_delta_color_amended_witness :
    (1 : Int) ≠ 2
    ∧ partialDeltaColor (some 2) (some 0) (some 5) 1 1 5
        = some (amendedPartialDeltaColor (1 - 2) (1 - 0) (5 - 5)) :=
  ⟨by decide, partial_delta_color_amended 2 0 5 1 1 5 (by decide)⟩

/-- Membership after a JS `Set.add`. -/
theorem mem_jsAdd {s : JsSet} {x y : String} : x ∈ jsAdd s y ↔ x ∈ s ∨ x = y := by
  unfold jsAdd
  split_ifs with h
  · constructor
    · exact fun hx => Or.inl hx
    · intro hx
      rcases hx with hx | rfl
      · exact hx
      · exact h
  · simp

/-- Membership after bulk-adding the control ids of a control list. -/
theorem mem_foldl_jsAdd {l : List ControlRef} {s : JsSet} {x : String} :
    x ∈ l.foldl (fun t c => jsAdd t c.control_id) s
      ↔ x ∈ s ∨ ∃ c ∈ l, c.control_id = x := by
  induction l generalizing s with
  | nil => simp
  | cons c0 rest ih =>
    simp only [List.foldl_cons]
    rw [ih, mem_jsAdd]
    constructor
    · rintro ((hx | hx) | ⟨c, hc, rfl⟩)
      · exact Or.inl hx
      · exact Or.inr ⟨c0, by simp, hx.symm⟩
      · exact Or.inr ⟨c, List.mem_cons_of_mem _ hc, rfl⟩
    · rintro (hx | ⟨c, hc, rfl⟩)
      · exact Or.inl (Or.inl hx)
      · rcases List.mem_cons.mp hc with rfl | hc
        · exact Or.inl (Or.inr rfl)
        · exact Or.inr ⟨c, hc, rfl⟩

/-- Bulk deletion only ever shrinks the set. -/
theorem mem_of_mem_foldl_jsDelete {l : List ControlRef} :
    ∀ {s : JsSet} {x : String},
      x ∈ l.foldl (fun t c => jsDelete t c.control_id) s → x ∈ s := by
  induction l with
  | nil => exact fun h => h
  | cons c0 rest ih =>
    intro s x h
    simp only [List.foldl_cons] at h
    exact List.mem_of_mem_erase (ih h)

/-- An element whose id is deleted by none of the controls survives bulk
deletion. -/
theorem mem_foldl_jsDelete_of_ne {l : List ControlRef} :
    ∀ {s : JsSet} {x : String}, x ∈ s → (∀ c ∈ l, c.control_id ≠ x) →
      x ∈ l.foldl (fun t c => jsDelete t c.control_id) s := by
  induction l with
  | nil => exact fun hx _ => hx
  | cons c0 rest ih =>
    intro s x hx hne
    simp only [List.foldl_cons]
    apply ih
    · exact (List.mem_erase_of_ne fun h => hne c0 (List.mem_cons_self _ _) h.symm).mpr hx
    · exact fun c hc => hne c (List.mem_cons_of_mem _ hc)

/-- Full membership characterisation of bulk deletion on a duplicate-free set
(the `Set` representation invariant). -/
theorem mem_foldl_jsDelete_iff {l : List ControlRef} {x : String} :
    ∀ {s : JsSet}, s.Nodup →
      (x ∈ l.foldl (fun t c => jsDelete t c.control_id) s
        ↔ x ∈ s ∧ ∀ c ∈ l, c.control_id ≠ x) := by
  induction l with
  | nil =>
    intro s _
    simp
  | cons c0 rest ih =>
    intro s hs
    simp only [List.foldl_cons]
    have ih2 := ih (show (jsDelete s c0.control_id).Nodup from hs.erase c0.control_id)
    rw [ih2]
    unfold jsDelete
    rw [hs.mem_erase_iff]
    constructor
    · rintro ⟨⟨hxne, hxs⟩, hrest⟩
      refine ⟨hxs, fun c hc => ?_⟩
      rcases List.mem_cons.mp hc with rfl | hc
      · exact fun h => hxne h.symm
      · exact hrest c hc
    · rintro ⟨hxs, hall⟩
      exact ⟨⟨fun h => hall c0 (List.mem_cons_self _ _) h.symm, hxs⟩,
        fun c hc => hall c (List.mem_cons_of_mem _ hc)⟩

/-- `jsHas` decides membership. -/
theorem jsHas_eq_true_iff {s : JsSet} {x : String} : jsHas s x = true ↔ x ∈ s := by
  unfold jsHas
  exact decide_eq_true_iff

/-- A filter keeps the whole list exactly when every element passes. -/
theorem filter_length_eq_iff {l : List ControlRef} {p : ControlRef → Bool} :
    (l.filter p).length = l.length ↔ ∀ c ∈ l, p c = true := by
  constructor
  · intro h
    rw [← List.filter_eq_self (p := p)]
    exact (List.filter_sublist l).eq_of_length h
  · intro h
    rw [List.filter_eq_self.mpr h]

/-- Characterisation of the fully active badge. -/
theorem computeStatus_fullyActive_iff {st : DashState} {cap : Capability} :
    computeStatus st cap = CapStatus.fullyActive ↔
      cap.capability_id ∈ st.activeCapabilities ∧ cap.controls ≠ []
        ∧ ∀ c ∈ cap.controls, c.control_id ∈ st.activeControls := by
  unfold computeStatus
  by_cases hact : cap.capability_id ∈ st.activeCapabilities
  · by_cases hc : cap.controls = []
    · simp [hact, hc]
    · have hlen : 0 < cap.controls.length := List.length_pos.mpr hc
      rw [if_pos ⟨hact, hlen⟩]
      by_cases hall : ∀ c ∈ cap.controls, c.control_id ∈ st.activeControls
      · rw [if_pos (filter_length_eq_iff.mpr fun c hcm => jsHas_eq_true_iff.mpr (hall c hcm))]
        exact ⟨fun _ => ⟨hact, hc, hall⟩, fun _ => rfl⟩
      · rw [if_neg fun hlf =>
          hall fun c hcm => jsHas_eq_true_iff.mp (filter_length_eq_iff.mp hlf c hcm)]
        simp [hall]
  · rw [if_neg fun h => hact h.1, if_neg fun h => hact h.1]
    simp [hact]

/-- Characterisation of the partially active badge. -/
theorem computeStatus_partiallyActive_iff {st : DashState} {cap : Capability} :
    computeStatus st cap = CapStatus.partiallyActive ↔
      cap.capability_id ∈ st.activeCapabilities ∧
        (cap.controls = [] ∨ ∃ c ∈ cap.controls, c.control_id ∉ st.activeControls) := by
  unfold computeStatus
  by_cases hact : cap.capability_id ∈ st.activeCapabilities
  · by_cases hc : cap.controls = []
    · simp [hact, hc]
    · have hlen : 0 < cap.controls.length := List.length_pos.mpr hc
      rw [if_pos ⟨hact, hlen⟩]
      by_cases hall : ∀ c ∈ cap.controls, c.control_id ∈ st.activeControls
      · rw [if_pos (filter_length_eq_iff.mpr fun c hcm => jsHas_eq_true_iff.mpr (hall c hcm))]
        constructor
        · intro h
          exact absurd h (by simp)
        · rintro ⟨-, hc2 | ⟨c, hcm, hno⟩⟩
          · exact absurd hc2 hc
          · exact absurd (hall c hcm) hno
      · rw [if_neg fun hlf =>
          hall fun c hcm => jsHas_eq_true_iff.mp (filter_length_eq_iff.mp hlf c hcm)]
        push_neg at hall
        obtain ⟨c, hcm, hno⟩ := hall
        simp only [true_iff, eq_self_iff_true]
        exact ⟨hact, Or.inr ⟨c, hcm, hno⟩⟩
  · rw [if_neg fun h => hact h.1, if_neg fun h => hact h.1]
    simp [hact]

/-- Characterisation of the inactive badge. -/
theorem computeStatus_inactive_iff {st : DashState} {cap : Capability} :
    computeStatus st cap = CapStatus.inactive ↔
      cap.capability_id ∉ st.activeCapabilities := by
  unfold computeStatus
  by_cases hact : cap.capability_id ∈ st.activeCapabilities
  · by_cases hc : cap.controls = []
    · simp [hact, hc]
    · have hlen : 0 < cap.controls.length := List.length_pos.mpr hc
      rw [if_pos ⟨hact, hlen⟩]
      split_ifs <;> simp [hact]
  · rw [if_neg fun h => hact h.1, if_neg fun h => hact h.1]
    simp [hact]

/-- C6: the derived activation status is inactive exactly when the capability
is not in `activeCapabilities`; fully active exactly when it is active with a
non-empty control list all of whose controls are in `activeControls`;
partially active in every other active case (zero controls, or not all
controls active); and never fully active while `activeControls` excludes some
control of the capability. -/
theorem capability_status_classification (st : DashState) (cap : Capability) :
    (computeStatus st cap = CapStatus.inactive ↔
        cap.capability_id ∉ st.activeCapabilities)
    ∧ (computeStatus st cap = CapStatus.fullyActive ↔
        cap.capability_id ∈ st.activeCapabilities ∧ cap.controls ≠ []
          ∧ ∀ c ∈ cap.controls, c.control_id ∈ st.activeControls)
    ∧ (computeStatus st cap = CapStatus.partiallyActive ↔
        cap.capability_id ∈ st.activeCapabilities ∧
          (cap.controls = [] ∨ ∃ c ∈ cap.controls, c.control_id ∉ st.activeControls))
    ∧ ((∃ c ∈ cap.controls, c.control_id ∉ st.activeControls) →
        computeStatus st cap ≠ CapStatus.fullyActive) := by
  refine ⟨computeStatus_inactive_iff, computeStatus_fullyActive_iff,
    computeStatus_partiallyActive_iff, ?_⟩
  rintro ⟨c, hcm, hno⟩ hfull
  exact hno ((computeStatus_fullyActive_iff.mp hfull).2.2 c hcm)

/-- C6 witness: an active capability whose single control is not active is
classified, and in particular is not fully active. -/
theorem capability_status_classification_witness :
    computeStatus
        { treeData := none, activeCapabilities := ["A"], activeControls := [],
          currentScenarioId := none, draft := none }
        { capability_id := "A", capability_name := "Asset Mgmt",
          controls := [{ control_id := "c1", control_title := "t" }] }
      ≠ CapStatus.fullyActive :=
  (capability_status_classification
      { treeData := none, activeCapabilities := ["A"], activeControls := [],
        currentScenarioId := none, draft := none }
      { capability_id := "A", capability_name := "Asset Mgmt",
        controls := [{ control_id := "c1", control_title := "t" }] }).2.2.2
    ⟨{ control_id := "c1", control_title := "t" }, by decide, by decide⟩

/-- C5: toggling an active capability twice (deactivate, then reactivate),
with no individual control toggled in between, leaves `activeControls` a
superset of its previous value. -/
theorem toggle_capability_twice_superset (st : DashState) (cap : Capability)
    (hid : cap.capability_id ≠ "")
    (hact : cap.capability_id ∈ st.activeCapabilities)
    (hnodup : st.activeCapabilities.Nodup) :
    ∀ x ∈ st.activeControls,
      x ∈ (toggleCapability (toggleCapability st cap) cap).activeControls := by
  intro x hx
  have h1 : toggleCapability st cap =
      { st with
          activeCapabilities := jsDelete st.activeCapabilities cap.capability_id,
          activeControls :=
            cap.controls.foldl (fun s c => jsDelete s c.control_id) st.activeControls } := by
    unfold toggleCapability
    rw [if_neg hid, if_pos hact]
  have hnotmem : cap.capability_id ∉ jsDelete st.activeCapabilities cap.capability_id :=
    hnodup.not_mem_erase
  have h2 : (toggleCapability (toggleCapability st cap) cap).activeControls =
      cap.controls.foldl (fun s c => jsAdd s c.control_id)
        (cap.controls.foldl (fun s c => jsDelete s c.control_id) st.activeControls) := by
    rw [h1]
    unfold toggleCapability
    rw [if_neg hid, if_neg hnotmem]
  rw [h2]
  by_cases hshared : ∃ c ∈ cap.controls, c.control_id = x
  · exact mem_foldl_jsAdd.mpr (Or.inr hshared)
  · refine mem_foldl_jsAdd.mpr (Or.inl (mem_foldl_jsDelete_of_ne hx fun c hc h => ?_))
    exact hshared ⟨c, hc, h⟩

/-- C5 witness: a concrete double toggle keeps an unrelated active control. -/
theorem toggle_capability_twice_superset_witness :
    "c9" ∈ (toggleCapability
        (toggleCapability
          { treeData := none, activeCapabilities := ["A"], activeControls := ["c9"],
            currentScenarioId := none, draft := none }
          { capability_id := "A", capability_name := "Asset Mgmt",
            controls := [{ control_id := "c1", control_title := "t" }] })
        { capability_id := "A", capability_name := "Asset Mgmt",
          controls := [{ control_id := "c1", control_title := "t" }] }).activeControls :=
  toggle_capability_twice_superset
    { treeData := none, activeCapabilities := ["A"], activeControls := ["c9"],
      currentScenarioId := none, draft := none }
    { capability_id := "A", capability_name := "Asset Mgmt",
      controls := [{ control_id := "c1", control_title := "t" }] }
    (by decide) (by decide) (by decide) "c9" (by decide)

/-- C10: deactivating an active capability removes every one of its control
ids from `activeControls`, shared ones included; a distinct, still active
capability sharing a control keeps its `activeCapabilities` membership
untouched but drops from fully active to partially active. -/
theorem deactivation_cascade_hits_shared_controls (st : DashState)
    (capA capB : Capability)
    (hidA : capA.capability_id ≠ "")
    (hactA : capA.capability_id ∈ st.activeCapabilities)
    (hnodupCtrls : st.activeControls.Nodup)
    (hne : capB.capability_id ≠ capA.capability_id)
    (hshared : ∃ cb ∈ capB.controls, ∃ ca ∈ capA.controls, cb.control_id = ca.control_id)
    (hfull : computeStatus st capB = CapStatus.fullyActive) :
    (∀ c ∈ capA.controls, c.control_id ∉ (toggleCapability st capA).activeControls)
    ∧ capB.capability_id ∈ (toggleCapability st capA).activeCapabilities
    ∧ computeStatus (toggleCapability st capA) capB = CapStatus.partiallyActive := by
  have h1 : toggleCapability st capA =
      { st with
          activeCapabilities := jsDelete st.activeCapabilities capA.capability_id,
          activeControls :=
            capA.controls.foldl (fun s c => jsDelete s c.control_id) st.activeControls } := by
    unfold toggleCapability
    rw [if_neg hidA, if_pos hactA]
  obtain ⟨hBact, hBne, hBall⟩ := computeStatus_fullyActive_iff.mp hfull
  refine ⟨?_, ?_, ?_⟩
  · intro c hc hmem
    rw [h1] at hmem
    exact ((mem_foldl_jsDelete_iff hnodupCtrls).mp hmem).2 c hc rfl
  · rw [h1]
    exact (List.mem_erase_of_ne hne).mpr hBact
  · apply computeStatus_partiallyActive_iff.mpr
    constructor
    · rw [h1]
      exact (List.mem_erase_of_ne hne).mpr hBact
    · obtain ⟨cb, hcb, ca, hca, heq⟩ := hshared
      refine Or.inr ⟨cb, hcb, ?_⟩
      rw [h1]
      intro hmem
      exact absurd heq.symm (((mem_foldl_jsDelete_iff hnodupCtrls).mp hmem).2 ca hca)

/-- C10 witness: two capabilities sharing a control; deactivating the first
demotes the untouched second from fully active to partially active. -/
theorem deactivation_cascade_hits_shared_controls_witness :
    computeStatus
        (toggleCapability
          { treeData := none, activeCapabilities := ["A", "B"], activeControls := ["c1"],
            currentScenarioId := none, draft := none }
          { capability_id := "A", capability_name := "Asset Mgmt",
            controls := [{ control_id := "c1", control_title := "t" }] })
        { capability_id := "B", capability_name := "Backup",
          controls := [{ control_id := "c1", control_title := "t" }] }
      = CapStatus.partiallyActive :=
  (deactivation_cascade_hits_shared_controls
      { treeData := none, activeCapabilities := ["A", "B"], activeControls := ["c1"],
        currentScenarioId := none, draft := none }
      { capability_id := "A", capability_name := "Asset Mgmt",
        controls := [{ control_id := "c1", control_title := "t" }] }
      { capability_id := "B", capability_name := "Backup",
        controls := [{ control_id := "c1", control_title := "t" }] }
      (by decide) (by decide) (by decide) (by decide)
      ⟨{ control_id := "c1", control_title := "t" }, by decide,
        { control_id := "c1", control_title := "t" }, by decide, by decide⟩
      (by decide)).2.2

/-- Membership after conditionally bulk-adding mapped ids. -/
theorem mem_foldl_jsAdd_if {β : Type} (p : β → Bool) (f : β → String) :
    ∀ {l : List β} {s : JsSet} {x : String},
      x ∈ l.foldl (fun t b => if p b then jsAdd t (f b) else t) s
        ↔ x ∈ s ∨ ∃ b ∈ l, p b = true ∧ f b = x := by
  intro l
  induction l with
  | nil =>
    intro s x
    simp
  | cons b0 rest ih =>
    intro s x
    simp only [List.foldl_cons]
    by_cases hp : p b0
    · rw [if_pos hp, ih, mem_jsAdd]
      constructor
      · rintro ((hx | rfl) | ⟨b, hb, hpb, rfl⟩)
        · exact Or.inl hx
        · exact Or.inr ⟨b0, List.mem_cons_self _ _, hp, rfl⟩
        · exact Or.inr ⟨b, List.mem_cons_of_mem _ hb, hpb, rfl⟩
      · rintro (hx | ⟨b, hb, hpb, rfl⟩)
        · exact Or.inl (Or.inl hx)
        · rcases List.mem_cons.mp hb with rfl | hb
          · exact Or.inl (Or.inr rfl)
          · exact Or.inr ⟨b, hb, hpb, rfl⟩
    · rw [if_neg hp, ih]
      constructor
      · rintro (hx | ⟨b, hb, hpb, rfl⟩)
        · exact Or.inl hx
        · exact Or.inr ⟨b, List.mem_cons_of_mem _ hb, hpb, rfl⟩
      · rintro (hx | ⟨b, hb, hpb, rfl⟩)
        · exact Or.inl hx
        · rcases List.mem_cons.mp hb with rfl | hb
          · exact absurd hpb (by simpa using hp)
          · exact Or.inr ⟨b, hb, hpb, rfl⟩

/-- Membership in the per-capability bulk-activation fold used by the
back-compat branch of `loadScenario`. -/
theorem mem_foldl_capAdd {tree : List Capability} :
    ∀ {caps : List String} {acc : JsSet} {x : String},
      x ∈ caps.foldl
          (fun a capabilityId =>
            match findCapability tree capabilityId with
            | some capability =>
              capability.controls.foldl (fun a2 c => jsAdd a2 c.control_id) a
            | none => a) acc
        ↔ x ∈ acc ∨ ∃ capId ∈ caps, ∃ cap, findCapability tree capId = some cap
            ∧ ∃ c ∈ cap.controls, c.control_id = x := by
  intro caps
  induction caps with
  | nil =>
    intro acc x
    simp
  | cons capId0 rest ih =>
    intro acc x
    simp only [List.foldl_cons]
    cases hfind : findCapability tree capId0 with
    | none =>
      rw [ih]
      constructor
      · rintro (hx | ⟨capId, hc, cap, hf, hcc⟩)
        · exact Or.inl hx
        · exact Or.inr ⟨capId, List.mem_cons_of_mem _ hc, cap, hf, hcc⟩
      · rintro (hx | ⟨capId, hc, cap, hf, hcc⟩)
        · exact Or.inl hx
        · rcases List.mem_cons.mp hc with rfl | hc
          · rw [hfind] at hf
            exact absurd hf (by simp)
          · exact Or.inr ⟨capId, hc, cap, hf, hcc⟩
    | some capability =>
      rw [ih, mem_foldl_jsAdd]
      constructor
      · rintro ((hx | ⟨c, hc, rfl⟩) | ⟨capId, hc, cap, hf, hcc⟩)
        · exact Or.inl hx
        · exact Or.inr ⟨capId0, List.mem_cons_self _ _, capability, hfind, c, hc, rfl⟩
        · exact Or.inr ⟨capId, List.mem_cons_of_mem _ hc, cap, hf, hcc⟩
      · rintro (hx | ⟨capId, hc, cap, hf, hcc⟩)
        · exact Or.inl (Or.inl hx)
        · rcases List.mem_cons.mp hc with rfl | hc
          · rw [hfind] at hf
            obtain ⟨c, hcm, hcc2⟩ := hcc
            cases hf
            exact Or.inl (Or.inr ⟨c, hcm, hcc2⟩)
          · exact Or.inr ⟨capId, hc, cap, hf, hcc⟩

/-- C3: with a loaded tree, `serializeSelections` returns one selection entry
per capability of the tree with an explicit `is_active` flag (`false`
included), so its length equals the total capability count whatever the
active-set size; with duplicate-free tree ids this is exactly one entry per
`capability_id`. -/
theorem serialize_selections_full_snapshot (st : DashState) (tree : List Capability)
    (htree : st.treeData = some tree) :
    (serializeSelections st).selections.length = tree.length
    ∧ (serializeSelections st).selections.map (fun e => e.capability_id)
        = tree.map (fun cap => cap.capability_id)
    ∧ (∀ e ∈ (serializeSelections st).selections,
        e.is_active = jsHas st.activeCapabilities e.capability_id)
    ∧ ((tree.map (fun cap => cap.capability_id)).Nodup →
        ((serializeSelections st).selections.map (fun e => e.capability_id)).Nodup) := by
  have h : serializeSelections st =
      { selections := tree.map (fun cap =>
          { capability_id := cap.capability_id,
            is_active := jsHas st.activeCapabilities cap.capability_id }),
        control_selections := serializeControlSelections st } := by
    unfold serializeSelections
    rw [htree]
  rw [h]
  have hids : (tree.map (fun cap =>
      ({ capability_id := cap.capability_id,
         is_active := jsHas st.activeCapabilities cap.capability_id }
        : CapabilitySelection))).map (fun e => e.capability_id)
      = tree.map (fun cap => cap.capability_id) := by
    rw [List.map_map]
    rfl
  refine ⟨by simp, hids, ?_, ?_⟩
  · intro e he
    obtain ⟨cap, hcap, rfl⟩ := List.mem_map.mp he
    rfl
  · intro hnd
    rw [hids]
    exact hnd

/-- C3 witness: a two-capability tree with one active capability serializes
to a snapshot of length two. -/
theorem serialize_selections_full_snapshot_witness :
    (serializeSelections
        { treeData := some
            [{ capability_id := "A", capability_name := "n",
               controls := [{ control_id := "c1", control_title := "t" }] },
             { capability_id := "B", capability_name := "n", controls := [] }],
          activeCapabilities := ["A"], activeControls := ["c1"],
          currentScenarioId := none, draft := none }).selections.length = 2 :=
  (serialize_selections_full_snapshot
      { treeData := some
          [{ capability_id := "A", capability_name := "n",
             controls := [{ control_id := "c1", control_title := "t" }] },
           { capability_id := "B", capability_name := "n", controls := [] }],
        activeCapabilities := ["A"], activeControls := ["c1"],
        currentScenarioId := none, draft := none }
      [{ capability_id := "A", capability_name := "n",
         controls := [{ control_id := "c1", control_title := "t" }] },
       { capability_id := "B", capability_name := "n", controls := [] }]
      rfl).1

/-- C7: `save()` with no bound scenario never emits the scenario-update call;
it shows the warning-level status message (and no other status message, in
particular no error-level one) and routes the current selection to draft
persistence, whose write carries both id sets whenever local storage
succeeds. -/
theorem save_without_scenario_goes_to_draft (st : DashState) (storageOk serverOk : Bool)
    (hnone : st.currentScenarioId = none) :
    (∀ sid payload, Effect.putScenario sid payload ∉ (saveScenario st storageOk serverOk).2)
    ∧ Effect.statusMessage
        "No worksheet selected. Use Save As… to name and save, or continue editing to keep a local draft."
        "warning" ∈ (saveScenario st storageOk serverOk).2
    ∧ (∀ m l, Effect.statusMessage m l ∈ (saveScenario st storageOk serverOk).2 →
        l = "warning")
    ∧ (storageOk = true →
        (saveScenario st storageOk serverOk).1.draft
          = some { activeCapabilityIds := st.activeCapabilities,
                   activeControlIds := st.activeControls }
        ∧ Effect.draftWrite st.activeCapabilities st.activeControls
            ∈ (saveScenario st storageOk serverOk).2) := by
  unfold saveScenario persistDraft
  rw [hnone]
  cases storageOk with
  | false =>
    refine ⟨?_, by simp, ?_, ?_⟩
    · intro sid payload h
      simp at h
    · intro m l h
      simp at h
      exact h.2
    · intro h
      cases h
  | true =>
    refine ⟨?_, by simp, ?_, ?_⟩
    · intro sid payload h
      simp at h
    · intro m l h
      simp at h
      exact h.2
    · intro _
      exact ⟨rfl, by simp⟩

/-- C7 witness: a concrete unbound state routes the save to the draft. -/
theorem save_without_scenario_goes_to_draft_witness :
    Effect.statusMessage
      "No worksheet selected. Use Save As… to name and save, or continue editing to keep a local draft."
      "warning"
      ∈ (saveScenario
          { treeData := none, activeCapabilities := ["A"], activeControls := ["c1"],
            currentScenarioId := none, draft := none } true true).2 :=
  (save_without_scenario_goes_to_draft
      { treeData := none, activeCapabilities := ["A"], activeControls := ["c1"],
        currentScenarioId := none, draft := none } true true rfl).2.1

/-- C8 counterexample: a scenario whose `control_selections` field is present
but empty does not determine `activeControls` (which an exact application
would leave empty); the load falls back to the back-compat default and
activates the controls of the active capabilities. -/
theorem load_scenario_empty_list_counterexample :
    ({ scenario_id := 1, scenario_name := "s",
       selections := [{ capability_id := "A", is_active := true }],
       control_selections := some [] } : Scenario).control_selections = some []
    ∧ (applyScenario
        { treeData := some
            [{ capability_id := "A", capability_name := "n",
               controls := [{ control_id := "c1", control_title := "t" }] }],
          activeCapabilities := [], activeControls := [],
          currentScenarioId := none, draft := none }
        { scenario_id := 1, scenario_name := "s",
          selections := [{ capability_id := "A", is_active := true }],
          control_selections := some [] }).activeControls = ["c1"] := by
  constructor <;> decide

/-- C8 amended: a successful load by non-null id binds the scenario id and
sets `activeCapabilities` from the saved `is_active` selections; a present
and NON-EMPTY `control_selections` list determines `activeControls` exactly;
an absent or present-but-EMPTY list falls back to activating every control of
every active capability found in the tree. -/
theorem load_scenario_applies_selections (st : DashState) (scenario : Scenario)
    (x : String) :
    (applyScenario st scenario).currentScenarioId = some scenario.scenario_id
    ∧ (x ∈ (applyScenario st scenario).activeCapabilities ↔
        ∃ sel ∈ scenario.selections, sel.is_active = true ∧ sel.capability_id = x)
    ∧ (∀ l, scenario.control_selections = some l → l ≠ [] →
        (x ∈ (applyScenario st scenario).activeControls ↔
          ∃ cs ∈ l, cs.is_active = true ∧ cs.control_id = x))
    ∧ ((scenario.control_selections = none ∨ scenario.control_selections = some []) →
        ∀ tree, st.treeData = some tree →
          (x ∈ (applyScenario st scenario).activeControls ↔
            ∃ capId ∈ (applyScenario st scenario).activeCapabilities,
              ∃ cap, findCapability tree capId = some cap
                ∧ ∃ c ∈ cap.controls, c.control_id = x)) := by
  refine ⟨rfl, ?_, ?_, ?_⟩
  · simp only [applyScenario]
    rw [mem_foldl_jsAdd_if (fun sel : CapabilitySelection => sel.is_active)
      (fun sel : CapabilitySelection => sel.capability_id)]
    simp
  · intro l hl hne
    simp only [applyScenario, hl]
    rw [if_pos (List.length_pos.mpr hne)]
    rw [mem_foldl_jsAdd_if (fun cs : ControlSelection => cs.is_active)
      (fun cs : ControlSelection => cs.control_id)]
    simp
  · intro hcs tree htree
    rcases hcs with hcs | hcs
    · simp only [applyScenario, hcs, htree]
      unfold defaultActiveControls
      rw [mem_foldl_capAdd]
      simp
    · simp only [applyScenario, hcs, htree]
      rw [if_neg (by simp)]
      unfold defaultActiveControls
      rw [mem_foldl_capAdd]
      simp

/-- C8 witness: a present non-empty control-selections list restores exactly
its active entries. -/
theorem load_scenario_applies_selections_witness :
    "z" ∈ (applyScenario
        { treeData := some
            [{ capability_id := "A", capability_name := "n",
               controls := [{ control_id := "c1", control_title := "t" }] }],
          activeCapabilities := [], activeControls := [],
          currentScenarioId := none, draft := none }
        { scenario_id := 1, scenario_name := "s",
          selections := [{ capability_id := "A", is_active := true }],
          control_selections := some [{ control_id := "z", is_active := true }] }).activeControls :=
  ((load_scenario_applies_selections
      { treeData := some
          [{ capability_id := "A", capability_name := "n",
             controls := [{ control_id := "c1", control_title := "t" }] }],
        activeCapabilities := [], activeControls := [],
        currentScenarioId := none, draft := none }
      { scenario_id := 1, scenario_name := "s",
        selections := [{ capability_id := "A", is_active := true }],
        control_selections := some [{ control_id := "z", is_active := true }] }
      "z").2.2.1 [{ control_id := "z", is_active := true }] rfl (by decide)).mpr
    ⟨{ control_id := "z", is_active := true }, by decide, rfl, rfl⟩

/-- C9 counterexample: a confirmed, successful delete of the bound scenario
clears the binding, the draft and `activeCapabilities`, but leaves a
non-empty `activeControls` intact — it does not clear both in-memory
selection sets. -/
theorem delete_scenario_keeps_controls_counterexample :
    (deleteScenario
        { treeData := none, activeCapabilities := ["A"], activeControls := ["c1"],
          currentScenarioId := some 1,
          draft := some { activeCapabilityIds := ["A"], activeControlIds := ["c1"] } }
        true true).1.currentScenarioId = none
    ∧ (deleteScenario
        { treeData := none, activeCapabilities := ["A"], activeControls := ["c1"],
          currentScenarioId := some 1,
          draft := some { activeCapabilityIds := ["A"], activeControlIds := ["c1"] } }
        true true).1.draft = none
    ∧ (deleteScenario
        { treeData := none, activeCapabilities := ["A"], activeControls := ["c1"],
          currentScenarioId := some 1,
          draft := some { activeCapabilityIds := ["A"], activeControlIds := ["c1"] } }
        true true).1.activeCapabilities = []
    ∧ (deleteScenario
        { treeData := none, activeCapabilities := ["A"], activeControls := ["c1"],
          currentScenarioId := some 1,
          draft := some { activeCapabilityIds := ["A"], activeControlIds := ["c1"] } }
        true true).1.activeControls = ["c1"] := by
  refine ⟨rfl, rfl, rfl, rfl⟩

/-- C9 amended: a confirmed, successful delete of a bound scenario clears the
scenario binding, the local draft and the active-capability set, completes on
every state (treeData unset included, since the embedding is total exactly as
the guarded source path), and leaves `activeControls` unchanged. -/
theorem delete_scenario_clears_binding (st : DashState) (sid : Nat)
    (hbound : st.currentScenarioId = some sid) :
    (deleteScenario st true true).1.currentScenarioId = none
    ∧ (deleteScenario st true true).1.draft = none
    ∧ (deleteScenario st true true).1.activeCapabilities = []
    ∧ (deleteScenario st true true).1.activeControls = st.activeControls := by
  unfold deleteScenario
  rw [hbound]
  simp

/-- C9 witness: concrete instantiation of the amended delete behaviour. -/
theorem delete_scenario_clears_binding_witness :
    (deleteScenario
        { treeData := none, activeCapabilities := ["A", "B"], activeControls := ["c2"],
          currentScenarioId := some 5,
          draft := some { activeCapabilityIds := ["A"], activeControlIds := [] } }
        true true).1.currentScenarioId = none :=
  (delete_scenario_clears_binding
      { treeData := none, activeCapabilities := ["A", "B"], activeControls := ["c2"],
        currentScenarioId := some 5,
        draft := some { activeCapabilityIds := ["A"], activeControlIds := [] } }
      5 rfl).1

/-- The OR-update branch of `insertControlSelection` touches only `is_active`,
so the id list of the accumulator is unchanged. -/
theorem map_control_id_update (acc : List ControlSelection) (cid : String) (b : Bool) :
    ((acc.map fun e =>
        if e.control_id == cid then { e with is_active := e.is_active || b } else e).map
      fun e => e.control_id) = acc.map fun e => e.control_id := by
  rw [List.map_map]
  refine List.map_congr_left ?_
  intro e _
  by_cases he : (e.control_id == cid) = true
  · simp [Function.comp, he]
  · simp [Function.comp, he]

/-- Ids present after one `insertControlSelection` step: the old ids plus the
control's id when it is truthy. -/
theorem insertControlSelection_mem_ids {ac : JsSet} {acc : List ControlSelection}
    {control : ControlRef} {x : String} :
    x ∈ (insertControlSelection ac acc control).map (fun e => e.control_id)
      ↔ x ∈ acc.map (fun e => e.control_id)
        ∨ (control.control_id = x ∧ control.control_id ≠ "") := by
  unfold insertControlSelection
  split_ifs with h1 h2
  · simp [h1]
  · rw [map_control_id_update]
    constructor
    · exact Or.inl
    · rintro (hx | ⟨rfl, -⟩)
      · exact hx
      · obtain ⟨e, he, heq⟩ := List.find?_isSome.mp h2
        exact List.mem_map.mpr ⟨e, he, beq_iff_eq.mp heq⟩
  · simp only [List.map_append, List.map_cons, List.map_nil, List.mem_append,
      List.mem_singleton]
    constructor
    · rintro (hx | rfl)
      · exact Or.inl hx
      · exact Or.inr ⟨rfl, h1⟩
    · rintro (hx | ⟨rfl, -⟩)
      · exact Or.inl hx
      · exact Or.inr rfl

/-- Every entry stores the global activity of its control id, before and after
one `insertControlSelection` step (the OR update is idempotent because both
sides already equal the global membership). -/
theorem insertControlSelection_invariant {ac : JsSet} {acc : List ControlSelection}
    {control : ControlRef}
    (hinv : ∀ e ∈ acc, e.is_active = jsHas ac e.control_id) :
    ∀ e ∈ insertControlSelection ac acc control, e.is_active = jsHas ac e.control_id := by
  unfold insertControlSelection
  split_ifs with h1 h2
  · exact hinv
  · intro e he
    obtain ⟨e0, he0, rfl⟩ := List.mem_map.mp he
    by_cases heq : (e0.control_id == control.control_id) = true
    · rw [if_pos heq]
      show (e0.is_active || jsHas ac control.control_id) = jsHas ac e0.control_id
      rw [← beq_iff_eq.mp heq, hinv e0 he0, Bool.or_self]
    · rw [if_neg heq]
      exact hinv e0 he0
  · intro e he
    rcases List.mem_append.mp he with he | he
    · exact hinv e he
    · rw [List.mem_singleton] at he
      subst he
      rfl

/-- One `insertControlSelection` step keeps the id list duplicate-free. -/
theorem insertControlSelection_nodup {ac : JsSet} {acc : List ControlSelection}
    {control : ControlRef}
    (hnd : (acc.map (fun e => e.control_id)).Nodup) :
    ((insertControlSelection ac acc control).map (fun e => e.control_id)).Nodup := by
  unfold insertControlSelection
  split_ifs with h1 h2
  · exact hnd
  · rw [map_control_id_update]
    exact hnd
  · rw [List.map_append, List.nodup_append]
    refine ⟨hnd, by simp, ?_⟩
    intro y hy hy2
    simp only [List.map_cons, List.map_nil, List.mem_singleton] at hy2
    subst hy2
    have hnone : acc.find? (fun e => e.control_id == control.control_id) = none := by
      cases hfind : acc.find? (fun e => e.control_id == control.control_id) with
      | none => rfl
      | some e =>
        rw [hfind] at h2
        exact absurd rfl h2
    obtain ⟨e, he, heq⟩ := List.mem_map.mp hy
    exact absurd (by simp [heq]) (List.find?_eq_none.mp hnone e he)

/-- Ids after folding a whole control list into the accumulator. -/
theorem foldl_insert_mem_ids {ac : JsSet} {x : String} :
    ∀ {controls : List ControlRef} {acc : List ControlSelection},
      x ∈ (controls.foldl (insertControlSelection ac) acc).map (fun e => e.control_id)
        ↔ x ∈ acc.map (fun e => e.control_id)
          ∨ ∃ c ∈ controls, c.control_id = x ∧ c.control_id ≠ "" := by
  intro controls
  induction controls with
  | nil =>
    intro acc
    simp
  | cons c0 rest ih =>
    intro acc
    simp only [List.foldl_cons]
    rw [ih, insertControlSelection_mem_ids]
    constructor
    · rintro ((hx | ⟨hx1, hx2⟩) | ⟨c, hc, hcx, hcne⟩)
      · exact Or.inl hx
      · exact Or.inr ⟨c0, List.mem_cons_self _ _, hx1, hx2⟩
      · exact Or.inr ⟨c, List.mem_cons_of_mem _ hc, hcx, hcne⟩
    · rintro (hx | ⟨c, hc, hcx, hcne⟩)
      · exact Or.inl (Or.inl hx)
      · rcases List.mem_cons.mp hc with rfl | hc
        · exact Or.inl (Or.inr ⟨hcx, hcne⟩)
        · exact Or.inr ⟨c, hc, hcx, hcne⟩

/-- The stored-activity invariant survives folding a whole control list. -/
theorem foldl_insert_invariant {ac : JsSet} :
    ∀ {controls : List ControlRef} {acc : List ControlSelection},
      (∀ e ∈ acc, e.is_active = jsHas ac e.control_id) →
      ∀ e ∈ controls.foldl (insertControlSelection ac) acc,
        e.is_active = jsHas ac e.control_id := by
  intro controls
  induction controls with
  | nil => exact fun h => h
  | cons c0 rest ih =>
    intro acc hinv
    simp only [List.foldl_cons]
    exact ih (insertControlSelection_invariant hinv)

/-- Deduplication survives folding a whole control list. -/
theorem foldl_insert_nodup {ac : JsSet} :
    ∀ {controls : List ControlRef} {acc : List ControlSelection},
      (acc.map (fun e => e.control_id)).Nodup →
      ((controls.foldl (insertControlSelection ac) acc).map
        (fun e => e.control_id)).Nodup := by
  intro controls
  induction controls with
  | nil => exact fun h => h
  | cons c0 rest ih =>
    intro acc hnd
    simp only [List.foldl_cons]
    exact ih (insertControlSelection_nodup hnd)

/-- Ids after the outer fold over the active capability ids. -/
theorem foldl_capSerialize_mem_ids {tree : List Capability} {ac : JsSet} {x : String} :
    ∀ {capIds : List String} {acc : List ControlSelection},
      x ∈ (capIds.foldl
          (fun acc2 capabilityId =>
            match findCapability tree capabilityId with
            | some capability => capability.controls.foldl (insertControlSelection ac) acc2
            | none => acc2) acc).map (fun e => e.control_id)
        ↔ x ∈ acc.map (fun e => e.control_id)
          ∨ ∃ capId ∈ capIds, ∃ cap, findCapability tree capId = some cap
              ∧ ∃ c ∈ cap.controls, c.control_id = x ∧ c.control_id ≠ "" := by
  intro capIds
  induction capIds with
  | nil =>
    intro acc
    simp
  | cons capId0 rest ih =>
    intro acc
    simp only [List.foldl_cons]
    cases hfind : findCapability tree capId0 with
    | none =>
      rw [ih]
      constructor
      · rintro (hx | ⟨capId, hc, cap, hf, hcc⟩)
        · exact Or.inl hx
        · exact Or.inr ⟨capId, List.mem_cons_of_mem _ hc, cap, hf, hcc⟩
      · rintro (hx | ⟨capId, hc, cap, hf, hcc⟩)
        · exact Or.inl hx
        · rcases List.mem_cons.mp hc with rfl | hc
          · rw [hfind] at hf
            exact absurd hf (by simp)
          · exact Or.inr ⟨capId, hc, cap, hf, hcc⟩
    | some capability =>
      rw [ih, foldl_insert_mem_ids]
      constructor
      · rintro ((hx | ⟨c, hc, hcx, hcne⟩) | ⟨capId, hc, cap, hf, hcc⟩)
        · exact Or.inl hx
        · exact Or.inr ⟨capId0, List.mem_cons_self _ _, capability, hfind, c, hc, hcx, hcne⟩
        · exact Or.inr ⟨capId, List.mem_cons_of_mem _ hc, cap, hf, hcc⟩
      · rintro (hx | ⟨capId, hc, cap, hf, hcc⟩)
        · exact Or.inl (Or.inl hx)
        · rcases List.mem_cons.mp hc with rfl | hc
          · rw [hfind] at hf
            cases hf
            obtain ⟨c, hcm, hcx, hcne⟩ := hcc
            exact Or.inl (Or.inr ⟨c, hcm, hcx, hcne⟩)
          · exact Or.inr ⟨capId, hc, cap, hf, hcc⟩

/-- The stored-activity invariant survives the outer fold. -/
theorem foldl_capSerialize_invariant {tree : List Capability} {ac : JsSet} :
    ∀ {capIds : List String} {acc : List ControlSelection},
      (∀ e ∈ acc, e.is_active = jsHas ac e.control_id) →
      ∀ e ∈ capIds.foldl
          (fun acc2 capabilityId =>
            match findCapability tree capabilityId with
            | some capability => capability.controls.foldl (insertControlSelection ac) acc2
            | none => acc2) acc,
        e.is_active = jsHas ac e.control_id := by
  intro capIds
  induction capIds with
  | nil => exact fun h => h
  | cons capId0 rest ih =>
    intro acc hinv
    simp only [List.foldl_cons]
    cases hfind : findCapability tree capId0 with
    | none => exact ih hinv
    | some capability => exact ih (foldl_insert_invariant hinv)

/-- Deduplication survives the outer fold. -/
theorem foldl_capSerialize_nodup {tree : List Capability} {ac : JsSet} :
    ∀ {capIds : List String} {acc : List ControlSelection},
      (acc.map (fun e => e.control_id)).Nodup →
      ((capIds.foldl
          (fun acc2 capabilityId =>
            match findCapability tree capabilityId with
            | some capability => capability.controls.foldl (insertControlSelection ac) acc2
            | none => acc2) acc).map (fun e => e.control_id)).Nodup := by
  intro capIds
  induction capIds with
  | nil => exact fun h => h
  | cons capId0 rest ih =>
    intro acc hnd
    simp only [List.foldl_cons]
    cases hfind : findCapability tree capId0 with
    | none => exact ih hnd
    | some capability => exact ih (foldl_insert_nodup hnd)

/-- C4: with a loaded tree whose control ids are all truthy,
`serializeControlSelections` holds exactly one entry per control id reachable
through an active capability (deduplicated even when shared), and the entry's
`is_active` equals membership in the global `activeControls` set — true
exactly when the control was activated through any containing active
capability (OR semantics). -/
theorem serialize_control_selections_dedup_or (st : DashState) (tree : List Capability)
    (htree : st.treeData = some tree)
    (hvalid : ∀ cap ∈ tree, ∀ c ∈ cap.controls, c.control_id ≠ "") :
    ((serializeControlSelections st).map (fun e => e.control_id)).Nodup
    ∧ (∀ x : String,
        x ∈ (serializeControlSelections st).map (fun e => e.control_id) ↔
          ∃ capId ∈ st.activeCapabilities, ∃ cap,
            findCapability tree capId = some cap ∧ ∃ c ∈ cap.controls, c.control_id = x)
    ∧ ∀ e ∈ serializeControlSelections st,
        e.is_active = jsHas st.activeControls e.control_id := by
  have hser : serializeControlSelections st =
      st.activeCapabilities.foldl
        (fun acc capabilityId =>
          match findCapability tree capabilityId with
          | some capability =>
            capability.controls.foldl (insertControlSelection st.activeControls) acc
          | none => acc)
        [] := by
    unfold serializeControlSelections
    rw [htree]
  rw [hser]
  refine ⟨foldl_capSerialize_nodup (by simp), ?_, foldl_capSerialize_invariant (by simp)⟩
  intro x
  rw [foldl_capSerialize_mem_ids]
  simp only [List.map_nil, List.not_mem_nil, false_or]
  constructor
  · rintro ⟨capId, hc, cap, hf, c, hcm, hcx, -⟩
    exact ⟨capId, hc, cap, hf, c, hcm, hcx⟩
  · rintro ⟨capId, hc, cap, hf, c, hcm, hcx⟩
    exact ⟨capId, hc, cap, hf, c, hcm, hcx,
      hvalid cap (List.mem_of_find?_eq_some hf) c hcm⟩

/-- C4 witness: a control shared by two active capabilities appears once and
reports active. -/
theorem serialize_control_selections_dedup_or_witness :
    ((serializeControlSelections
        { treeData := some
            [{ capability_id := "A", capability_name := "n",
               controls := [{ control_id := "c1", control_title := "t" }] },
             { capability_id := "B", capability_name := "n",
               controls := [{ control_id := "c1", control_title := "t" }] }],
          activeCapabilities := ["A", "B"], activeControls := ["c1"],
          currentScenarioId := none, draft := none }).map
      (fun e => e.control_id)).Nodup :=
  (serialize_control_selections_dedup_or
      { treeData := some
          [{ capability_id := "A", capability_name := "n",
             controls := [{ control_id := "c1", control_title := "t" }] },
           { capability_id := "B", capability_name := "n",
             controls := [{ control_id := "c1", control_title := "t" }] }],
        activeCapabilities := ["A", "B"], activeControls := ["c1"],
        currentScenarioId := none, draft := none }
      [{ capability_id := "A", capability_name := "n",
         controls := [{ control_id := "c1", control_title := "t" }] },
       { capability_id := "B", capability_name := "n",
         controls := [{ control_id := "c1", control_title := "t" }] }]
      rfl (by decide)).1
